import Mathlib

/-!
Verification of the stake-weighted governance program (polls, proposals,
bounded ring queue, one-shot execution) against its specification.

The definitions below are a shallow embedding of the program source
(`programs/voting/src/lib.rs`).  Machine integers are modelled as `Nat`
with explicit reduction modulo `2^32` (for `u32`) or `2^64` (for `u64`)
where the source performs unchecked arithmetic (release-profile wrapping
semantics).  Operations that can panic in the source (indexing and the
`%` operator with a zero divisor) return `Option`, with `none` marking
the panic.  Fallible instructions return `Except`.
-/

/-- Modulus of the `u32` machine integers (`head`, `tail` counters). -/
def U32 : Nat := 4294967296

/-- Modulus of the `u64` machine integers (vote tallies, balances). -/
def U64 : Nat := 18446744073709551616

/-- Account addresses.  Only equality and a zero default are used. -/
abbrev Pubkey := Nat

/-- The program error enum (`ErrorCode` in the source). -/
inductive ErrorCode
  | InvalidVoteAddress
  | VotingIsOver
  | InvalidPollOption
  | InvalidNonce
  | VotingPeriodActive
  | ProposalBurned
  | Overflow
  | RingFull
  | ProposalQNotFull
  | TailProposalNotProvided
  | InvalidTailProposal
  | ProposalNotBurned
  | InvalidSigner
  | InvalidVoteAccount
  | Unknown

/-- Failures of `execute_proposal`: either a program error or a failure
propagated from the replayed inner transaction (`invoke_signed`). -/
inductive ExecError
  | program (e : ErrorCode)
  | replayFailed

/-- Failures of a vote instruction: either a program error, or the host
runtime refusing to initialize (`#[account(init)]`) a vote-receipt
account at an address where an account already exists. -/
inductive VoteFailure
  | AccountInUse
  | Program (e : ErrorCode)

/-- An account together with its on-chain address (`ProgramAccount`). -/
structure ProgramAccount (α : Type) where
  key : Pubkey
  account : α

/-- The `Burnable` trait: expiry predicate used for queue eviction. -/
class Burnable (α : Type) where
  burned : α → Int → Bool

/-- The bounded ring queue (`GovQueue`). -/
structure GovQueue where
  head : Nat
  tail : Nat
  proposals : List Pubkey

/-- `GovQueue::capacity`: the fixed slot-array length. -/
def GovQueue.capacity (q : GovQueue) : Nat := q.proposals.length

/-- `GovQueue::index_of`: `counter % capacity`.  `none` models the Rust
panic when the capacity is zero. -/
def GovQueue.index_of (q : GovQueue) (counter : Nat) : Option Nat :=
  if q.capacity = 0 then none else some (counter % q.capacity)

/-- `GovQueue::is_full`: `index_of(head + 1) == index_of(tail)`.  The
`u32` sum `head + 1` wraps modulo `2^32`. -/
def GovQueue.is_full (q : GovQueue) : Option Bool :=
  match q.index_of ((q.head + 1) % U32), q.index_of q.tail with
  | some a, some b => some (decide (a = b))
  | _, _ => none

/-- `GovQueue::get_tail`: the slot at `tail % capacity`; `none` models
the panic on a zero-capacity queue. -/
def GovQueue.get_tail (q : GovQueue) : Option Pubkey :=
  q.proposals.get? (q.tail % q.capacity)

/-- The unconditional insertion step at the end of `append_if_free`:
write at `index_of(head)`, increment `head`, return the cursor captured
before the call mutated anything. -/
def GovQueue.pushHead (q : GovQueue) (proposal : Pubkey) (cursor : Nat) :
    Option (GovQueue × Except ErrorCode Nat) :=
  match q.index_of q.head with
  | none => none
  | some h_idx =>
      some ({ q with proposals := q.proposals.set h_idx proposal,
                     head := (q.head + 1) % U32 }, Except.ok cursor)

/-- `GovQueue::append_if_free`.  On error paths the source returns before
mutating any field, so the returned queue is the input queue. -/
def GovQueue.append_if_free {α : Type} [Burnable α] (q : GovQueue)
    (proposal : Pubkey) (clock : Int)
    (tail_entry : Option (ProgramAccount α)) :
    Option (GovQueue × Except ErrorCode Nat) :=
  match q.is_full with
  | none => none
  | some true =>
      match tail_entry with
      | none => some (q, Except.error ErrorCode.TailProposalNotProvided)
      | some t =>
          match q.get_tail with
          | none => none
          | some tailKey =>
              if t.key ≠ tailKey then
                some (q, Except.error ErrorCode.InvalidTailProposal)
              else if Burnable.burned t.account clock = false then
                some (q, Except.error ErrorCode.ProposalNotBurned)
              else
                GovQueue.pushHead { q with tail := (q.tail + 1) % U32 }
                  proposal q.head
  | some false => GovQueue.pushHead q proposal q.head

/-- A freshly initialized queue of `q_len` slots, as produced by
`create_governor` (zeroed counters, slots resized with the default
all-zero address). -/
def GovQueue.empty (q_len : Nat) : GovQueue :=
  { head := 0, tail := 0, proposals := List.replicate q_len 0 }

/-- The two queues resized by `create_governor` with queue length
`q_len`: the poll queue and the proposal queue. -/
def create_governor_queues (q_len : Nat) : GovQueue × GovQueue :=
  (GovQueue.empty q_len, GovQueue.empty q_len)

/-- The `Poll` account. -/
structure Poll where
  governor : Pubkey
  msg : String
  start_ts : Int
  end_ts : Int
  options : List String
  vote_weights : List Nat
  nonce : Nat
  vault : Pubkey

/-- A zero-initialized `Poll` (the state of a fresh account). -/
def Poll.zeroed : Poll :=
  { governor := 0, msg := "", start_ts := 0, end_ts := 0, options := [],
    vote_weights := [], nonce := 0, vault := 0 }

/-- `impl Burnable for Poll`: a poll is expired once `end_ts < now`. -/
instance : Burnable Poll := ⟨fun p clock => decide (p.end_ts < clock)⟩

/-- One account reference of a recorded transaction. -/
structure TransactionAccount where
  pubkey : Pubkey
  is_signer : Bool
  is_writable : Bool

/-- The deferred transaction payload recorded on a proposal. -/
structure Transaction where
  program_id : Pubkey
  did_execute : Bool
  accounts : List TransactionAccount
  data : List Nat
  signers : List Bool

/-- A zero-initialized `Transaction`. -/
def Transaction.zeroed : Transaction :=
  { program_id := 0, did_execute := false, accounts := [], data := [],
    signers := [] }

/-- The `Proposal` account. -/
structure Proposal where
  governor : Pubkey
  proposer : Pubkey
  msg : String
  start_ts : Int
  end_ts : Int
  vote_yes : Nat
  vote_no : Nat
  tx : Transaction
  vault : Pubkey
  nonce : Nat
  burned : Bool

/-- A zero-initialized `Proposal` (the state of a fresh account). -/
def Proposal.zeroed : Proposal :=
  { governor := 0, proposer := 0, msg := "", start_ts := 0, end_ts := 0,
    vote_yes := 0, vote_no := 0, tx := Transaction.zeroed, vault := 0,
    nonce := 0, burned := false }

/-- `impl Burnable for Proposal`: expiry is the explicit `burned` flag. -/
instance : Burnable Proposal := ⟨fun p _ => p.burned⟩

/-- Iterated `append_if_free` with no tail entry supplied, used to state
properties about consecutive appends. -/
def appendRun (q : GovQueue) (keys : List Pubkey) (clock : Int) :
    Option (Except ErrorCode GovQueue) :=
  match keys with
  | [] => some (Except.ok q)
  | k :: rest =>
      match q.append_if_free k clock (none : Option (ProgramAccount Proposal)) with
      | none => none
      | some (q2, Except.ok _) => appendRun q2 rest clock
      | some (_, Except.error e) => some (Except.error e)

/-- The `Governor` configuration account. -/
structure Governor where
  registrar : Pubkey
  nonce : Nat
  poll_q : Pubkey
  poll_price : Nat
  proposal_q : Pubkey
  proposal_price : Nat
  mint : Pubkey
  time : Int

/-- The `Vote` receipt account. -/
structure Vote where
  member : Pubkey
  account : Pubkey
  selector : Nat
  burned : Bool

/-- The stake data read from the registry at vote time: the member
address, its beneficiary, and the free and locked staking-pool token
amounts. -/
structure StakeMember where
  member : Pubkey
  beneficiary : Pubkey
  member_spt_amount : Nat
  member_spt_locked_amount : Nat

/-- Modelled from the spec: the vote-receipt address is a deterministic
derived identity `derive(seed, nonce) -> identity` computed from the
beneficiary, the member account, and the poll or proposal address.  The
source delegates this to `hash::hashv` and `Pubkey::create_with_seed`,
which are host primitives outside this repository; determinism of the
derivation is the only property used here. -/
def deriveVoteAddress (beneficiary member target : Pubkey) : Pubkey :=
  Nat.pair beneficiary (Nat.pair member target)

/-- The accounts touched by `vote_poll`: the poll and the set of
already-existing account addresses (used by the `init` constraint). -/
structure PollVoteState where
  poll : ProgramAccount Poll
  created : List Pubkey

/-- The `vote_poll` instruction.  Checks run in source order: the
`#[account(init)]` creation of the vote receipt (modelled from the spec:
creating an account at an address that already exists fails), then
`VotePoll::accounts` (derived-address and selector checks), then the
`poll_active` access guard exactly as written in the source (it rejects
while `now < end_ts`), then the handler body. -/
def vote_poll (st : PollVoteState) (voteKey : Pubkey) (stake : StakeMember)
    (selector : Nat) (clock : Int) :
    Except VoteFailure (PollVoteState × Vote) :=
  if voteKey ∈ st.created then
    Except.error VoteFailure.AccountInUse
  else if voteKey ≠ deriveVoteAddress stake.beneficiary stake.member st.poll.key then
    Except.error (VoteFailure.Program ErrorCode.InvalidVoteAddress)
  else if st.poll.account.vote_weights.length ≤ selector then
    Except.error (VoteFailure.Program ErrorCode.InvalidPollOption)
  else if clock < st.poll.account.end_ts then
    Except.error (VoteFailure.Program ErrorCode.VotingIsOver)
  else
    let v : Vote := { member := stake.member, account := st.poll.key,
                      selector := selector, burned := true }
    let w := st.poll.account.vote_weights
    let w2 := w.set selector
      ((w.getD selector 0 + stake.member_spt_amount
        + stake.member_spt_locked_amount) % U64)
    Except.ok ({ poll := { key := st.poll.key,
                           account := { st.poll.account with vote_weights := w2 } },
                 created := voteKey :: st.created }, v)

/-- The accounts touched by `vote_proposal`. -/
structure ProposalVoteState where
  proposal : ProgramAccount Proposal
  created : List Pubkey

/-- The `vote_proposal` instruction.  The vote-receipt account is only
subject to the `init` constraint (modelled from the spec, as for polls);
unlike `VotePoll`, the source has no accounts check tying the receipt
address to the voter, and the handler body never reads or writes the
receipt.  The `proposal_active` guard is exactly as written in the
source (it rejects while `now < end_ts`); the tally increment is an
unchecked `u64` addition. -/
def vote_proposal (st : ProposalVoteState) (voteKey : Pubkey)
    (_stake : StakeMember) (yes : Bool) (clock : Int) :
    Except VoteFailure ProposalVoteState :=
  if voteKey ∈ st.created then
    Except.error VoteFailure.AccountInUse
  else if clock < st.proposal.account.end_ts then
    Except.error (VoteFailure.Program ErrorCode.VotingIsOver)
  else
    let p := st.proposal.account
    let p2 := if yes then { p with vote_yes := (p.vote_yes + 1) % U64 }
              else { p with vote_no := (p.vote_no + 1) % U64 }
    Except.ok { proposal := { key := st.proposal.key, account := p2 },
                created := voteKey :: st.created }

/-- The field assignments of the `create_proposal` handler.  It assigns
exactly `governor`, `msg`, `start_ts`, `end_ts`, `nonce`, `vault`, and
`tx` on the zero-initialized account; `end_ts` is `now` plus the
duration configured on the governor. -/
def create_proposal (gov : Governor) (governorKey vaultKey : Pubkey)
    (msg : String) (tx : Transaction) (nonce : Nat) (clock : Int) : Proposal :=
  { Proposal.zeroed with
      governor := governorKey
      msg := msg
      start_ts := clock
      end_ts := clock + gov.time
      nonce := nonce
      vault := vaultKey
      tx := tx }

/-- `u64::checked_add`. -/
def checked_add (a b : Nat) : Option Nat :=
  if a + b < U64 then some (a + b) else none

/-- The `close_vote` instruction over the two lamport balances it
touches.  The `poll_over` access guard is exactly as written in the
source (it rejects when `now >= end_ts`); the lamport addition is
checked and fails with `Overflow`.  Returns the final (vote, to)
lamport balances. -/
def close_vote (poll : Poll) (vote_lamports to_lamports : Nat)
    (clock : Int) : Except ErrorCode (Nat × Nat) :=
  if poll.end_ts ≤ clock then
    Except.error ErrorCode.VotingIsOver
  else
    match checked_add to_lamports vote_lamports with
    | none => Except.error ErrorCode.Overflow
    | some s => Except.ok (0, s)

/-- The body of `execute_proposal` (everything after the
`#[access_control(proposal_over(..))]` attribute): the `burned` check,
the in-body deadline check, the tally and threshold computation, and the
conditional replay of the deferred transaction.  `txSucceeds` abstracts
whether the replayed inner transaction succeeds; the returned `Bool`
records whether the deferred transaction was replayed. -/
def execute_proposal_body (p : Proposal) (clock : Int) (txSucceeds : Bool) :
    Except ExecError (Proposal × Bool) :=
  if p.burned then
    Except.error (ExecError.program ErrorCode.ProposalBurned)
  else if clock < p.end_ts then
    Except.error (ExecError.program ErrorCode.VotingPeriodActive)
  else
    let total := (p.vote_yes + p.vote_no) % U64
    if total ≠ 0 ∧ 60 < ((p.vote_yes * 100) % U64) / total then
      if txSucceeds then Except.ok ({ p with burned := true }, true)
      else Except.error ExecError.replayFailed
    else
      Except.ok ({ p with burned := true }, false)

/-- The full `execute_proposal` instruction: the `proposal_over` access
guard exactly as written in the source (it rejects when
`now >= end_ts`), followed by the handler body. -/
def execute_proposal (p : Proposal) (clock : Int) (txSucceeds : Bool) :
    Except ExecError (Proposal × Bool) :=
  if p.end_ts ≤ clock then
    Except.error (ExecError.program ErrorCode.VotingIsOver)
  else
    execute_proposal_body p clock txSucceeds

/-- A concrete governor configuration with proposal duration 30. -/
def govEx : Governor :=
  { registrar := 1, nonce := 0, poll_q := 2, poll_price := 0,
    proposal_q := 3, proposal_price := 0, mint := 4, time := 30 }

/-!
Helper lemmas about the ring queue.
-/

/-- A queue whose `is_full` check does not panic has nonzero capacity. -/
lemma GovQueue.capacity_pos_of_is_full (q : GovQueue) (b : Bool)
    (h : q.is_full = some b) : q.capacity ≠ 0 := by
  intro hc
  unfold GovQueue.is_full GovQueue.index_of at h
  simp [hc] at h

/-- Explicit form of `is_full` on a queue of nonzero capacity. -/
lemma GovQueue.is_full_of_cap_pos (q : GovQueue) (h : q.capacity ≠ 0) :
    q.is_full =
      some (decide ((((q.head + 1) % U32) % q.capacity) = q.tail % q.capacity)) := by
  unfold GovQueue.is_full GovQueue.index_of
  simp [h]

/-- On a queue of nonzero capacity, `get_tail` returns a slot. -/
lemma GovQueue.get_tail_some (q : GovQueue) (h : q.capacity ≠ 0) :
    ∃ tk, q.get_tail = some tk := by
  unfold GovQueue.get_tail
  have hlt : q.tail % q.capacity < q.proposals.length :=
    Nat.mod_lt _ (Nat.pos_of_ne_zero h)
  exact ⟨_, List.get?_eq_get hlt⟩

/-- A full queue with no tail entry supplied rejects the append and
returns the queue unchanged. -/
lemma GovQueue.append_full_none {α : Type} [Burnable α] (q : GovQueue)
    (p : Pubkey) (c : Int) (h : q.is_full = some true) :
    q.append_if_free p c (none : Option (ProgramAccount α)) =
      some (q, Except.error ErrorCode.TailProposalNotProvided) := by
  unfold GovQueue.append_if_free
  rw [h]

/-- A full queue given a tail entry whose address does not match the
slot at the tail rejects the append and returns the queue unchanged. -/
lemma GovQueue.append_full_mismatch {α : Type} [Burnable α] (q : GovQueue)
    (p : Pubkey) (c : Int) (t : ProgramAccount α) (tk : Pubkey)
    (h : q.is_full = some true) (h2 : q.get_tail = some tk)
    (h3 : t.key ≠ tk) :
    q.append_if_free p c (some t) =
      some (q, Except.error ErrorCode.InvalidTailProposal) := by
  unfold GovQueue.append_if_free
  rw [h, h2]
  simp [h3]

/-- A full queue given the correct tail entry that is not yet expired
rejects the append and returns the queue unchanged. -/
lemma GovQueue.append_full_not_burned {α : Type} [Burnable α] (q : GovQueue)
    (p : Pubkey) (c : Int) (t : ProgramAccount α)
    (h : q.is_full = some true) (h2 : q.get_tail = some t.key)
    (h4 : Burnable.burned t.account c = false) :
    q.append_if_free p c (some t) =
      some (q, Except.error ErrorCode.ProposalNotBurned) := by
  unfold GovQueue.append_if_free
  rw [h, h2]
  simp [h4]

/-- A full queue given the correct, expired tail entry evicts the tail
(incrementing `tail`), writes the new entry at `index_of(head)`,
increments `head`, and returns the pre-call head cursor. -/
lemma GovQueue.append_full_evict {α : Type} [Burnable α] (q : GovQueue)
    (p : Pubkey) (c : Int) (t : ProgramAccount α)
    (h : q.is_full = some true) (h2 : q.get_tail = some t.key)
    (h4 : Burnable.burned t.account c = true) :
    q.append_if_free p c (some t) =
      some ({ head := (q.head + 1) % U32, tail := (q.tail + 1) % U32,
              proposals := q.proposals.set (q.head % q.capacity) p },
            Except.ok q.head) := by
  have hcap := q.capacity_pos_of_is_full true h
  unfold GovQueue.append_if_free
  rw [h, h2]
  simp [h4, GovQueue.pushHead, GovQueue.index_of, GovQueue.capacity, hcap]
  simp [GovQueue.capacity] at hcap
  simp [hcap]

/-- A queue that is not full appends without touching `tail`: the entry
is written at `index_of(head)`, `head` is incremented, and the pre-call
head cursor is returned, for any supplied tail entry. -/
lemma GovQueue.append_not_full {α : Type} [Burnable α] (q : GovQueue)
    (p : Pubkey) (c : Int) (t : Option (ProgramAccount α))
    (h : q.is_full = some false) :
    q.append_if_free p c t =
      some ({ head := (q.head + 1) % U32, tail := q.tail,
              proposals := q.proposals.set (q.head % q.capacity) p },
            Except.ok q.head) := by
  have hcap := q.capacity_pos_of_is_full false h
  unfold GovQueue.append_if_free
  rw [h]
  simp [GovQueue.pushHead, GovQueue.index_of, GovQueue.capacity, hcap]
  simp [GovQueue.capacity] at hcap
  simp [hcap]

/-- Running consecutive appends on a queue with `tail = 0` and enough
free room: every append succeeds, `head` advances by the number of keys,
and `tail` and the capacity are unchanged. -/
lemma appendRun_fills (clock : Int) :
    ∀ (keys : List Pubkey) (q : GovQueue), q.tail = 0 → q.capacity < U32 →
      q.head + keys.length + 1 ≤ q.capacity →
      ∃ q2, appendRun q keys clock = some (Except.ok q2) ∧
        q2.tail = 0 ∧ q2.head = q.head + keys.length ∧
        q2.capacity = q.capacity := by
  intro keys
  induction keys with
  | nil =>
      intro q h0 _ _
      exact ⟨q, rfl, h0, by simp, rfl⟩
  | cons k rest ih =>
      intro q h0 hU hle
      rw [List.length_cons] at hle
      have hcap : q.capacity ≠ 0 := by omega
      have hhead1 : q.head + 1 < q.capacity := by omega
      have hheadU : q.head + 1 < U32 := lt_trans hhead1 hU
      have hfull : q.is_full = some false := by
        rw [GovQueue.is_full_of_cap_pos q hcap]
        rw [Nat.mod_eq_of_lt hheadU, Nat.mod_eq_of_lt hhead1, h0]
        simp
      have happ := GovQueue.append_not_full q k clock
        (none : Option (ProgramAccount Proposal)) hfull
      obtain ⟨q2, hrun, ht, hh, hc⟩ := ih
        ⟨(q.head + 1) % U32, q.tail, q.proposals.set (q.head % q.capacity) k⟩
        h0
        (by
          show (q.proposals.set (q.head % q.capacity) k).length < U32
          rw [List.length_set]
          exact hU)
        (by
          show (q.head + 1) % U32 + rest.length + 1 ≤
            (q.proposals.set (q.head % q.capacity) k).length
          rw [List.length_set, Nat.mod_eq_of_lt hheadU]
          unfold GovQueue.capacity at hle
          omega)
      refine ⟨q2, ?_, ht, ?_, ?_⟩
      · show appendRun q (k :: rest) clock = some (Except.ok q2)
        unfold appendRun
        rw [happ]
        exact hrun
      · rw [hh]
        show (q.head + 1) % U32 + rest.length = q.head + (k :: rest).length
        rw [Nat.mod_eq_of_lt hheadU, List.length_cons]
        omega
      · rw [hc]
        show (q.proposals.set (q.head % q.capacity) k).length = q.capacity
        rw [List.length_set]
        rfl

/-!
Claim theorems.
-/

/-- C4 counterexample: the claim says a queue of capacity `C`, starting
empty, accepts `C` consecutive appends with no eviction.  At `C = 2` the
second append already fails with `TailProposalNotProvided`: the ring
reports full as soon as `C - 1` slots are occupied. -/
theorem appendRun_capacity_two_fails :
    appendRun (GovQueue.empty 2) [1, 2] 0 =
      some (Except.error ErrorCode.TailProposalNotProvided) := rfl

/-- C4 (amended): a queue created with capacity `C` (`1 ≤ C < 2^32`),
starting from the empty state, accepts exactly `C - 1` consecutive
appends with no eviction; the `C`-th append without an expired-tail
proof fails with `TailProposalNotProvided` and returns the queue
unchanged (head, tail and slots identical). -/
theorem appendRun_admits_capacity_sub_one (C : Nat) (h1 : 1 ≤ C)
    (h2 : C < U32) (keys : List Pubkey) (hk : keys.length = C - 1)
    (clock : Int) :
    ∃ q2, appendRun (GovQueue.empty C) keys clock = some (Except.ok q2) ∧
      q2.head = C - 1 ∧ q2.tail = 0 ∧ q2.capacity = C ∧
      ∀ (k : Pubkey) (c2 : Int),
        q2.append_if_free k c2 (none : Option (ProgramAccount Proposal)) =
          some (q2, Except.error ErrorCode.TailProposalNotProvided) := by
  have hcapE : (GovQueue.empty C).capacity = C := by
    simp [GovQueue.empty, GovQueue.capacity]
  obtain ⟨q2, hrun, ht, hh, hc⟩ := appendRun_fills clock keys (GovQueue.empty C)
    rfl (by rw [hcapE]; exact h2)
    (by rw [hcapE]; show 0 + keys.length + 1 ≤ C; omega)
  rw [hcapE] at hc
  have hh2 : q2.head = C - 1 := by
    rw [hh, hk]
    show (GovQueue.empty C).head + (C - 1) = C - 1
    simp [GovQueue.empty]
  refine ⟨q2, hrun, hh2, ht, hc, ?_⟩
  intro k c2
  have hcap0 : q2.capacity ≠ 0 := by omega
  have hfull : q2.is_full = some true := by
    rw [GovQueue.is_full_of_cap_pos q2 hcap0]
    rw [hh2, ht, hc]
    have e0 : C - 1 + 1 = C := by omega
    rw [e0, Nat.mod_eq_of_lt h2]
    simp [Nat.mod_self]
  exact GovQueue.append_full_none q2 k c2 hfull

/-- C4 witness: instantiation of the amended claim at capacity 3 with
two appended keys. -/
theorem appendRun_admits_capacity_sub_one_witness :
    ∃ q2, appendRun (GovQueue.empty 3) [1, 2] 0 = some (Except.ok q2) ∧
      q2.head = 3 - 1 ∧ q2.tail = 0 ∧ q2.capacity = 3 ∧
      ∀ (k : Pubkey) (c2 : Int),
        q2.append_if_free k c2 (none : Option (ProgramAccount Proposal)) =
          some (q2, Except.error ErrorCode.TailProposalNotProvided) :=
  appendRun_admits_capacity_sub_one 3 (by decide) (by decide) [1, 2] rfl 0

/-- C7: admission into a full queue requires a supplied tail entry whose
address equals the slot at `index_of(tail)` and which satisfies the
expiry predicate; each of the three failure modes returns the queue
unchanged with its distinctive error, and on success `tail` is
incremented, the new entry is written at `index_of(head)`, `head` is
incremented, and the pre-call head cursor is returned. -/
theorem append_if_free_full_contract {α : Type} [Burnable α]
    (q : GovQueue) (proposal : Pubkey) (clock : Int)
    (h : q.is_full = some true) :
    (q.append_if_free proposal clock (none : Option (ProgramAccount α)) =
        some (q, Except.error ErrorCode.TailProposalNotProvided)) ∧
    (∀ t : ProgramAccount α, q.get_tail ≠ some t.key →
        q.append_if_free proposal clock (some t) =
          some (q, Except.error ErrorCode.InvalidTailProposal)) ∧
    (∀ t : ProgramAccount α, q.get_tail = some t.key →
        Burnable.burned t.account clock = false →
        q.append_if_free proposal clock (some t) =
          some (q, Except.error ErrorCode.ProposalNotBurned)) ∧
    (∀ t : ProgramAccount α, q.get_tail = some t.key →
        Burnable.burned t.account clock = true →
        q.append_if_free proposal clock (some t) =
          some ({ head := (q.head + 1) % U32, tail := (q.tail + 1) % U32,
                  proposals := q.proposals.set (q.head % q.capacity) proposal },
                Except.ok q.head)) := by
  have hcap := q.capacity_pos_of_is_full true h
  refine ⟨GovQueue.append_full_none q proposal clock h, ?_, ?_, ?_⟩
  · intro t hne
    obtain ⟨tk, htk⟩ := q.get_tail_some hcap
    have hkey : t.key ≠ tk := by
      intro he
      exact hne (by rw [htk, he])
    exact GovQueue.append_full_mismatch q proposal clock t tk h htk hkey
  · intro t he hb
    exact GovQueue.append_full_not_burned q proposal clock t h he hb
  · intro t he hb
    exact GovQueue.append_full_evict q proposal clock t h he hb

/-- C7 witness: the contract applied to the concrete full queue with one
slot holding address 5, appending address 9; the matching expired tail
entry is a burned proposal at address 5, the mismatching entry sits at
address 6, and the unexpired entry is the unburned proposal at 5. -/
theorem append_if_free_full_contract_witness :
    ((⟨0, 0, [5]⟩ : GovQueue).append_if_free 9 0
        (none : Option (ProgramAccount Proposal)) =
      some (⟨0, 0, [5]⟩, Except.error ErrorCode.TailProposalNotProvided)) ∧
    ((⟨0, 0, [5]⟩ : GovQueue).append_if_free 9 0
        (some (⟨6, Proposal.zeroed⟩ : ProgramAccount Proposal)) =
      some (⟨0, 0, [5]⟩, Except.error ErrorCode.InvalidTailProposal)) ∧
    ((⟨0, 0, [5]⟩ : GovQueue).append_if_free 9 0
        (some (⟨5, Proposal.zeroed⟩ : ProgramAccount Proposal)) =
      some (⟨0, 0, [5]⟩, Except.error ErrorCode.ProposalNotBurned)) ∧
    ((⟨0, 0, [5]⟩ : GovQueue).append_if_free 9 0
        (some (⟨5, { Proposal.zeroed with burned := true }⟩ :
          ProgramAccount Proposal)) =
      some (⟨1, 1, [9]⟩, Except.ok 0)) := by
  refine ⟨?_, ?_, ?_, ?_⟩
  · exact (append_if_free_full_contract ⟨0, 0, [5]⟩ 9 0 rfl).1
  · exact (append_if_free_full_contract ⟨0, 0, [5]⟩ 9 0 rfl).2.1
      ⟨6, Proposal.zeroed⟩ (by decide)
  · exact (append_if_free_full_contract ⟨0, 0, [5]⟩ 9 0 rfl).2.2.1
      ⟨5, Proposal.zeroed⟩ rfl rfl
  · exact (append_if_free_full_contract ⟨0, 0, [5]⟩ 9 0 rfl).2.2.2
      ⟨5, { Proposal.zeroed with burned := true }⟩ rfl rfl

/-- C10: a governing body created with queue length zero yields poll and
proposal queues of capacity zero, on which `index_of` and `is_full`
evaluate a modulus by zero (a panic, modelled as `none`), so every
subsequent `append_if_free` call has no defined result. -/
theorem zero_capacity_append_undefined :
    ∀ (proposal : Pubkey) (clock : Int)
      (t : Option (ProgramAccount Proposal)),
      (create_governor_queues 0).1.append_if_free proposal clock t = none ∧
      (create_governor_queues 0).2.append_if_free proposal clock t = none ∧
      (create_governor_queues 0).1.is_full = none ∧
      (create_governor_queues 0).1.index_of 0 = none := by
  intro proposal clock t
  exact ⟨rfl, rfl, rfl, rfl⟩

/-- C1: the claim says `execute_proposal` is callable exactly when the
deadline has passed.  In the source the `proposal_over` access guard is
inverted (it rejects with `VotingIsOver` whenever `now >= end_ts`),
while the body rejects with `VotingPeriodActive` whenever
`now < end_ts`; consequently every call fails: at or after the deadline
the deadline guard itself fails, contradicting the claim. -/
theorem execute_proposal_never_succeeds :
    (∀ (p : Proposal) (clock : Int) (t : Bool),
      ∃ e, execute_proposal p clock t = Except.error e) ∧
    execute_proposal { Proposal.zeroed with end_ts := 10, vote_yes := 100 }
        10 true =
      Except.error (ExecError.program ErrorCode.VotingIsOver) ∧
    execute_proposal { Proposal.zeroed with end_ts := 10, vote_yes := 100 }
        9 true =
      Except.error (ExecError.program ErrorCode.VotingPeriodActive) := by
  refine ⟨?_, rfl, rfl⟩
  intro p clock t
  by_cases h1 : p.end_ts ≤ clock
  · exact ⟨ExecError.program ErrorCode.VotingIsOver,
      by simp [execute_proposal, h1]⟩
  · by_cases h2 : p.burned = true
    · exact ⟨ExecError.program ErrorCode.ProposalBurned,
        by simp [execute_proposal, execute_proposal_body, h1, h2]⟩
    · have h3 : clock < p.end_ts := by omega
      exact ⟨ExecError.program ErrorCode.VotingPeriodActive,
        by simp [execute_proposal, execute_proposal_body, h1, h2, h3]⟩

/-- C2: the claim says `vote_poll` succeeds only while `now <= end_ts`
and is rejected afterwards with the voting-closed error.  The source
`poll_active` guard is inverted: on a poll with `end_ts = 10` a valid
vote at `now = 20` is accepted (and mutates the weights), while the
same vote at `now = 5` is rejected with `VotingIsOver`. -/
theorem vote_poll_accepts_after_deadline :
    (∃ st2 v, vote_poll
        ⟨⟨3, { Poll.zeroed with end_ts := 10, vote_weights := [0, 0] }⟩, []⟩
        (deriveVoteAddress 8 7 3) ⟨7, 8, 5, 2⟩ 0 20 =
          Except.ok (st2, v) ∧
        st2.poll.account.vote_weights = [7, 0]) ∧
    vote_poll
        ⟨⟨3, { Poll.zeroed with end_ts := 10, vote_weights := [0, 0] }⟩, []⟩
        (deriveVoteAddress 8 7 3) ⟨7, 8, 5, 2⟩ 0 5 =
      Except.error (VoteFailure.Program ErrorCode.VotingIsOver) :=
  ⟨⟨_, _, rfl, rfl⟩, rfl⟩

/-- C3: the claim says a second vote by the same member on the same
poll or proposal always fails, for proposals just as for polls.  For
proposals the source has no accounts check binding the vote receipt to
the voter: the same member can vote twice on one proposal using two
fresh receipt addresses, and both votes are accepted. -/
theorem vote_proposal_double_vote_accepted :
    ∃ st1 st2,
      vote_proposal ⟨⟨5, Proposal.zeroed⟩, []⟩ 100 ⟨7, 8, 1, 0⟩ true 0 =
        Except.ok st1 ∧
      vote_proposal st1 101 ⟨7, 8, 1, 0⟩ true 0 = Except.ok st2 ∧
      st2.proposal.account.vote_yes = 2 :=
  ⟨_, _, rfl, rfl, rfl⟩

/-- C5: the pass threshold of the execute body is a strict `>60` of
`yes * 100 / (yes + no)` in integer division: with `yes = 60`,
`no = 40` the deferred transaction is not replayed, with `yes = 61`,
`no = 39` it is replayed. -/
theorem execute_body_threshold_boundary :
    (execute_proposal_body
        { Proposal.zeroed with vote_yes := 60, vote_no := 40 } 0 true =
      Except.ok
        ({ Proposal.zeroed with vote_yes := 60, vote_no := 40, burned := true },
         false)) ∧
    (execute_proposal_body
        { Proposal.zeroed with vote_yes := 61, vote_no := 39 } 0 true =
      Except.ok
        ({ Proposal.zeroed with vote_yes := 61, vote_no := 39, burned := true },
         true)) :=
  ⟨rfl, rfl⟩

/-- C6: in the execute body, a proposal with `burned = true` fails with
`ProposalBurned` before any tally read or transaction replay, for every
clock value and regardless of whether the inner transaction would
succeed; the error return leaves all state unchanged, so the deferred
transaction is never replayed after finalization. -/
theorem execute_body_burned_fails_first (p : Proposal) (clock : Int)
    (t : Bool) (h : p.burned = true) :
    execute_proposal_body p clock t =
      Except.error (ExecError.program ErrorCode.ProposalBurned) := by
  simp [execute_proposal_body, h]

/-- C6 witness: the burned check at a concrete finalized proposal. -/
theorem execute_body_burned_fails_first_witness :
    execute_proposal_body { Proposal.zeroed with burned := true } 0 true =
      Except.error (ExecError.program ErrorCode.ProposalBurned) :=
  execute_body_burned_fails_first { Proposal.zeroed with burned := true }
    0 true rfl

/-- C8 counterexample: the claim says the vote-weight accumulation in
`vote_poll` either produces the exact sum or aborts with `Overflow`.
On a poll whose tally already holds `2^64 - 1`, a further vote of
weight 1 is accepted and the tally silently wraps to 0: no `Overflow`
error is raised and the stored value is not the mathematical sum. -/
theorem vote_poll_weight_wraps_silently :
    ∃ st2 v, vote_poll
        ⟨⟨3, { Poll.zeroed with vote_weights := [U64 - 1] }⟩, []⟩
        (deriveVoteAddress 8 7 3) ⟨7, 8, 1, 0⟩ 0 0 =
          Except.ok (st2, v) ∧
      st2.poll.account.vote_weights = [0] ∧ (U64 - 1) + 1 + 0 ≠ 0 :=
  ⟨_, _, rfl, rfl, by decide⟩

/-- C8 (amended): only the lamport accumulation in `close_vote` uses
checked arithmetic (failing with `Overflow`); the vote-weight
accumulation in `vote_poll`, the yes/no increments in `vote_proposal`,
and the total/adjusted computations in `execute_proposal` are unchecked
`u64` operations that wrap modulo `2^64` without error: a yes tally of
`2^64 - 1` wraps to 0 on the next vote, and a proposal with
`yes = 2^64 - 1`, `no = 1` computes `total = 0` and skips the replay. -/
theorem arithmetic_wrapping_behavior :
    (∃ st2, vote_proposal
        ⟨⟨5, { Proposal.zeroed with vote_yes := U64 - 1 }⟩, []⟩
        100 ⟨7, 8, 0, 0⟩ true 0 = Except.ok st2 ∧
      st2.proposal.account.vote_yes = 0) ∧
    (close_vote { Poll.zeroed with end_ts := 10 } 5 (U64 - 3) 0 =
      Except.error ErrorCode.Overflow) ∧
    (close_vote { Poll.zeroed with end_ts := 10 } 5 7 0 =
      Except.ok (0, 12)) ∧
    (execute_proposal_body
        { Proposal.zeroed with vote_yes := U64 - 1, vote_no := 1 } 0 true =
      Except.ok
        ({ Proposal.zeroed with vote_yes := U64 - 1, vote_no := 1, burned := true },
         false)) :=
  ⟨⟨_, rfl, rfl⟩, rfl, rfl, rfl⟩

/-- C9: the claim says `create_proposal` records the proposer identity.
The handler assigns every field except `proposer`, which keeps its
zero-initialized default for every caller; the `end_ts` half of the
claim holds: it is the clock at creation plus the duration configured
on the governor (time 30, clock 100, so 130). -/
theorem create_proposal_leaves_proposer_default :
    (create_proposal govEx 50 60 "m" Transaction.zeroed 1 100).proposer
        = 0 ∧
    (create_proposal govEx 50 60 "m" Transaction.zeroed 1 100).proposer
        = Proposal.zeroed.proposer ∧
    (create_proposal govEx 50 60 "m" Transaction.zeroed 1 100).end_ts
        = 130 :=
  ⟨rfl, rfl, rfl⟩
